import Mathlib

/-!
Verification of the minimal RealSense advanced-mode capture program
(`src/main.cpp`, two program variants in one file).

The development shallowly embeds the parts of the program the claims are
about:

* the rolling frame-duration window and FPS estimator
  (variant 1 lines 327-350, identically variant 2 lines 810-833);
* the periodic tuning-toggle timer (lines 177-178 and 240-246);
* the bounded retry loops of the one-time startup configuration
  (variant 2 lines 585-603, 664-682);
* the per-sensor tuning sweep of variant 1 (lines 248-323, with the
  whole-sensor capability gate and the auto-exposure readback guard
  before the region-of-interest request) and of variant 2
  (lines 764-806, per-mutation capability checks, no readback);
* the frame-ingest loop body (lines 184-235) and the loop exit paths
  (lines 206-207, 353-358).

C++ `int` / `int64_t` arithmetic is modelled by `Int` (no wraparound: the
program never relies on overflow, and signed overflow would be undefined
behaviour in the source), `std::list<int>` by `List Int` with the front of
the Lean list as the oldest element, and a call into the SDK that can raise
`rs2::error` by an `Option` / explicit boolean describing whether it raises.
-/

/-- Window capacity of the frame-duration window: the literal `100` at
line 335 of `src/main.cpp`. -/
def windowCap : Nat := 100

/-- State of the rolling FPS estimator: `std::list<int> ftimes` and
`int dur_sum` (lines 174-175). -/
structure FpsState where
  ftimes : List Int
  dur_sum : Int
deriving DecidableEq

/-- Initial estimator state (lines 174-175): empty list, zero sum. -/
def fpsInit : FpsState := ⟨[], 0⟩

/-- Lines 328-330: a measured duration of 0 is replaced by 1 before being
pushed into the window. -/
def recordDur (d : Int) : Int := if d = 0 then 1 else d

/-- Lines 333-340: push the duration, evict the oldest entry (adjusting the
running sum) when the window exceeds capacity, then add the new duration to
the running sum. -/
def fpsStep (st : FpsState) (d : Int) : FpsState :=
  let ft1 := st.ftimes ++ [d]
  if ft1.length > windowCap then
    { ftimes := ft1.tail, dur_sum := st.dur_sum - ft1.headI + d }
  else
    { ftimes := ft1, dur_sum := st.dur_sum + d }

/-- Feed a whole sequence of raw measured durations (each floored by
`recordDur`, as in lines 328-333) through the estimator. -/
def fpsRun (durs : List Int) : FpsState :=
  durs.foldl (fun st d => fpsStep st (recordDur d)) fpsInit

/-- Line 341: `int avg_dur = dur_sum / ftimes.size();`. -/
def avgDur (st : FpsState) : Int := st.dur_sum / (st.ftimes.length : Int)

/-- Line 347: `int avg_fps = 1000 / avg_dur;`. -/
def avgFps (st : FpsState) : Int := 1000 / avgDur st

/-- Invariant maintained by the estimator: the running sum equals the sum
of the window, the window never exceeds capacity, and every recorded
duration is at least 1. -/
def FpsInv (st : FpsState) : Prop :=
  st.dur_sum = st.ftimes.sum ∧ st.ftimes.length ≤ windowCap ∧ ∀ x ∈ st.ftimes, 1 ≤ x

/-- State of the periodic tuning controller: `t_since_toggle` and
`next_toggle` (lines 177-178). Time points are in milliseconds. -/
structure ToggleState where
  t_since_toggle : Int
  next_toggle : Int
deriving DecidableEq

/-- Initial controller state (lines 177-178): last-toggle time is the
current time, first interval is 3000 ms. -/
def toggleInit (t0 : Int) : ToggleState := ⟨t0, 3000⟩

/-- Line 242: the idle-to-mutating transition fires when
`t2 - t_since_toggle > next_toggle`. -/
def toggleFires (st : ToggleState) (t2 : Int) : Bool :=
  decide (t2 - st.t_since_toggle > st.next_toggle)

/-- Lines 242-246: on firing, reset `t_since_toggle` to the current time and
grow `next_toggle` by the fixed 10000 ms step; otherwise leave the state
unchanged. -/
def toggleStep (st : ToggleState) (t2 : Int) : ToggleState :=
  if t2 - st.t_since_toggle > st.next_toggle then
    { t_since_toggle := t2, next_toggle := st.next_toggle + 10000 }
  else st

/-- Run the controller over a sequence of observed times, one per loop
iteration. -/
def toggleRun (st : ToggleState) (ts : List Int) : ToggleState :=
  ts.foldl toggleStep st

/-- Result of one bounded retry loop (variant 2 lines 585-603, 613-644,
664-682): either the operation succeeded after `attempts` calls, or every
call failed and the loop aborted after `attempts` calls. -/
inductive RetryOutcome where
  | ok (attempts : Nat)
  | fatalAbort (attempts : Nat)
deriving DecidableEq

/-- Core of the retry loop. `fuel` is the number of calls still allowed
before the abort, i.e. `maxTries + 1 - tries` for the source's `tries`
counter; `i` is the number of calls already made. `attempt i` tells whether
the `i`-th call succeeds (`false` models a raised `rs2::error`). -/
def retryGo (attempt : Nat → Bool) : Nat → Nat → RetryOutcome
  | 0, i => RetryOutcome.fatalAbort i
  | fuel + 1, i =>
    if attempt i then RetryOutcome.ok (i + 1) else retryGo attempt fuel (i + 1)

/-- The retry loop of the startup configuration: `success = false;
tries = 0; while (!success) { try ... catch { tries++; if (tries > maxTries)
abort; } }`. The abort fires on failure number `maxTries + 1`, so at most
`maxTries + 1` calls are made. -/
def retryLoop (attempt : Nat → Bool) (maxTries : Nat) : RetryOutcome :=
  retryGo attempt (maxTries + 1) 0

/-- Observable outcome of one startup-configuration step. On exhaustion the
program stops the pipeline and returns 1 (lines 592-595, 671-674); on
success it simply continues. -/
structure StartupResult where
  exitCode : Option Nat
  pipelineStopped : Bool
  attemptsMade : Nat
deriving DecidableEq

/-- One startup-configuration mutation step with the source's retry budget
of 5 (`tries > 5` at lines 592, 633, 671). -/
def runStartupStep (attempt : Nat → Bool) : StartupResult :=
  match retryLoop attempt 5 with
  | RetryOutcome.ok n => ⟨none, false, n⟩
  | RetryOutcome.fatalAbort n => ⟨some 1, true, n⟩

/-- Environment of one sensor during a tuning sweep: which capabilities the
sensor advertises, whether the capability query itself raises, the two
auto-exposure readbacks (`none` models a raised `rs2::error`), and whether
the region-of-interest write raises. Option values are floats in the
source; only zero versus non-zero is ever inspected, so `Int` suffices. -/
structure SensorBehavior where
  supportsAE : Bool
  supportsEmitter : Bool
  isRoi : Bool
  capQueryThrows : Bool
  aeReadback1 : Option Int
  aeReadback2 : Option Int
  roiSetThrows : Bool
deriving DecidableEq

/-- Which mutating calls a sweep issued for one sensor, and whether the
sweep terminated the session. -/
structure SweepTrace where
  aeDisableAttempted : Bool
  aeEnableAttempted : Bool
  roiAttempted : Bool
  emitterAttempted : Bool
  fatal : Bool
deriving DecidableEq

/-- Variant 1 per-sensor sweep (lines 248-323). The capability gate at
lines 250-261 skips the whole sensor when the query raises or any of the
three capabilities is missing. Step 1 (lines 263-278) disables auto
exposure only when the first readback is non-zero; a raised readback is
caught and skips only that step. Step 2 (lines 280-288) always re-enables
auto exposure. Step 3 (lines 290-312) re-reads auto exposure: a raised
readback is caught and falls through to the emitter step; a zero readback
logs and `continue`s to the next sensor, skipping both the
region-of-interest write and the emitter step; a non-zero readback performs
the region-of-interest write (whose own failure is caught). Step 4
(lines 314-322) enables the emitter. Every `rs2::error` is caught inside
the loop, so no branch terminates the session. -/
def sweepSensorV1 (b : SensorBehavior) : SweepTrace :=
  if b.capQueryThrows then
    { aeDisableAttempted := false, aeEnableAttempted := false,
      roiAttempted := false, emitterAttempted := false, fatal := false }
  else if !b.supportsAE || !b.supportsEmitter || !b.isRoi then
    { aeDisableAttempted := false, aeEnableAttempted := false,
      roiAttempted := false, emitterAttempted := false, fatal := false }
  else
    let aeDis : Bool :=
      match b.aeReadback1 with
      | none => false
      | some v => decide (v ≠ 0)
    match b.aeReadback2 with
    | none =>
      { aeDisableAttempted := aeDis, aeEnableAttempted := true,
        roiAttempted := false, emitterAttempted := true, fatal := false }
    | some v =>
      if v = 0 then
        { aeDisableAttempted := aeDis, aeEnableAttempted := true,
          roiAttempted := false, emitterAttempted := false, fatal := false }
      else
        { aeDisableAttempted := aeDis, aeEnableAttempted := true,
          roiAttempted := true, emitterAttempted := true, fatal := false }

/-- Variant 2 per-sensor sweep (lines 764-806). The first try block always
attempts the region-of-interest write (no auto-exposure readback exists in
this variant); if that write raises (sensor not ROI-capable, or the write
itself fails) the auto-exposure disable in the same block is skipped,
otherwise the disable runs when `supports(ENABLE_AUTO_EXPOSURE)`. The
second try block enables the emitter when `supports(EMITTER_ENABLED)`, and
the third re-enables auto exposure when supported. All errors are caught,
so no branch terminates the session. -/
def sweepSensorV2 (b : SensorBehavior) : SweepTrace :=
  let roiThrew : Bool := !b.isRoi || b.roiSetThrows
  { aeDisableAttempted := !roiThrew && b.supportsAE,
    aeEnableAttempted := b.supportsAE,
    roiAttempted := true,
    emitterAttempted := b.supportsEmitter,
    fatal := false }

/-- Configured stream dimensions (lines 29-32). -/
def depth_w : Nat := 640

/-- Configured depth height (line 32). -/
def depth_h : Nat := 480

/-- Configured color width (line 29). -/
def color_w : Nat := 960

/-- Configured color height (line 30). -/
def color_h : Nat := 540

/-- Modality of a frame in an arriving frame set. In the source a depth
frame matches `is<rs2::depth_frame>` and a color frame matches the
`else if is<rs2::video_frame>` branch (lines 196, 214). -/
inductive FrameKind where
  | depthFrame
  | colorFrame
deriving DecidableEq

/-- One frame of an arriving frame set: its modality and dimensions as
reported by `get_width` / `get_height`. -/
structure Frame where
  kind : FrameKind
  width : Nat
  height : Nat
deriving DecidableEq

/-- Lines 195-230: walk the frame set, checking each depth frame against
the configured depth resolution and each color frame against the configured
color resolution. A mismatch returns the fatal error (lines 201-207 and
219-223); otherwise the flags `got_depth` / `got_color` accumulate. -/
def processFrames : List Frame → Bool → Bool → Except Unit (Bool × Bool)
  | [], got_depth, got_color => Except.ok (got_depth, got_color)
  | f :: fs, got_depth, got_color =>
    match f.kind with
    | FrameKind.depthFrame =>
      if f.width ≠ depth_w ∨ f.height ≠ depth_h then Except.error ()
      else processFrames fs true got_color
    | FrameKind.colorFrame =>
      if f.width ≠ color_w ∨ f.height ≠ color_h then Except.error ()
      else processFrames fs got_depth true

/-- How one iteration of the capture loop ends. -/
inductive IterResult where
  | sigintBreak
  | fatalResolution
  | missingModality
  | frameOkContinue
deriving DecidableEq

/-- The externally supplied inputs of one loop iteration: the value of
`got_sigint` observed at the iteration boundary (line 184) and the frame
set delivered by `wait_for_frames` (line 189). -/
structure IterInput where
  sigint : Bool
  frames : List Frame
deriving DecidableEq

/-- One iteration of the capture loop body (lines 180-235): the sigint
check breaks first; a resolution mismatch is fatal; a frame set missing a
modality breaks out of the loop; otherwise the iteration completes and the
loop continues. -/
def loopIteration (inp : IterInput) : IterResult :=
  if inp.sigint then IterResult.sigintBreak
  else
    match processFrames inp.frames false false with
    | Except.error () => IterResult.fatalResolution
    | Except.ok (got_depth, got_color) =>
      if !got_color || !got_depth then IterResult.missingModality
      else IterResult.frameOkContinue

/-- Final observable program state once the loop has ended: whether
`stop(pipeline)` ran and the process exit code. -/
structure ProgResult where
  pipelineStopped : Bool
  exitCode : Nat
deriving DecidableEq

/-- The capture loop driven by a list of per-iteration inputs. A `break`
(sigint or missing modality) falls through to lines 353-358: the pipeline
is stopped and the process returns 0. A resolution mismatch stops the
pipeline and returns 1 (lines 206-207). `none` means the supplied inputs
were exhausted with the loop still running. -/
def runLoop : List IterInput → Option ProgResult
  | [] => none
  | inp :: rest =>
    match loopIteration inp with
    | IterResult.sigintBreak => some ⟨true, 0⟩
    | IterResult.missingModality => some ⟨true, 0⟩
    | IterResult.fatalResolution => some ⟨true, 1⟩
    | IterResult.frameOkContinue => runLoop rest

/-- A raw duration that is nonnegative is recorded as at least 1. -/
theorem recordDur_one_le (d : Int) (hd : 0 ≤ d) : 1 ≤ recordDur d := by
  unfold recordDur
  split <;> omega

/-- The estimator step keeps the window invariant when the pushed duration
is at least 1. -/
theorem fpsStep_inv (st : FpsState) (d : Int) (h : FpsInv st) (hd : 1 ≤ d) :
    FpsInv (fpsStep st d) := by
  obtain ⟨hsum, hlen, hpos⟩ := h
  unfold FpsInv fpsStep
  by_cases hc : (st.ftimes ++ [d]).length > windowCap
  · rw [if_pos hc]
    cases hft : st.ftimes with
    | nil =>
      rw [hft] at hc
      simp [windowCap] at hc
    | cons a l =>
      rw [hft] at hsum hpos hlen
      simp only [List.cons_append, List.tail_cons, List.headI_cons,
        List.sum_cons, List.sum_append, List.length_append,
        List.length_cons] at hsum hc ⊢
      refine ⟨by simp [List.sum_append]; omega, by simp at hlen ⊢; omega, ?_⟩
      intro x hx
      rcases List.mem_append.mp hx with h1 | h2
      · exact hpos x (List.mem_cons_of_mem a h1)
      · rw [List.mem_singleton.mp h2]; exact hd
  · rw [if_neg hc]
    simp only [List.length_append, List.length_singleton] at hc
    refine ⟨by simp [List.sum_append, hsum], by simp; omega, ?_⟩
    intro x hx
    rcases List.mem_append.mp hx with h1 | h2
    · exact hpos x h1
    · rw [List.mem_singleton.mp h2]; exact hd

/-- The estimator fold keeps the window invariant for any sequence of
nonnegative raw durations. -/
theorem fpsFold_inv (durs : List Int) (st : FpsState) (h : FpsInv st)
    (hd : ∀ x ∈ durs, 0 ≤ x) :
    FpsInv (durs.foldl (fun st d => fpsStep st (recordDur d)) st) := by
  induction durs generalizing st with
  | nil => exact h
  | cons d ds ih =>
    exact ih (fpsStep st (recordDur d))
      (fpsStep_inv st (recordDur d) h (recordDur_one_le d (hd d (by simp))))
      (fun x hx => hd x (List.mem_cons_of_mem d hx))

/-- The whole-run invariant: sum, capacity and positivity of the window. -/
theorem fpsRun_inv (durs : List Int) (hd : ∀ x ∈ durs, 0 ≤ x) :
    FpsInv (fpsRun durs) :=
  fpsFold_inv durs fpsInit ⟨rfl, by simp [fpsInit, windowCap], by simp [fpsInit]⟩ hd

/-- One estimator step keeps exactly the last `min (length + 1) windowCap`
entries of the extended window. -/
theorem fpsStep_ftimes (st : FpsState) (d : Int) (h : st.ftimes.length ≤ windowCap) :
    (fpsStep st d).ftimes = (st.ftimes ++ [d]).drop (st.ftimes.length + 1 - windowCap) := by
  unfold fpsStep
  by_cases hc : (st.ftimes ++ [d]).length > windowCap
  · rw [if_pos hc]
    simp only [List.length_append, List.length_singleton] at hc
    have hlen : st.ftimes.length = windowCap := by omega
    have h1 : st.ftimes.length + 1 - windowCap = 1 := by omega
    rw [h1]
    exact (List.drop_one _).symm
  · rw [if_neg hc]
    simp only [List.length_append, List.length_singleton] at hc
    have h0 : st.ftimes.length + 1 - windowCap = 0 := by omega
    rw [h0, List.drop_zero]

/-- The window length after one step is the capped length. -/
theorem fpsStep_length (st : FpsState) (d : Int) (h : st.ftimes.length ≤ windowCap) :
    (fpsStep st d).ftimes.length = min (st.ftimes.length + 1) windowCap := by
  rw [fpsStep_ftimes st d h]
  simp only [List.length_drop, List.length_append, List.length_singleton]
  omega

/-- The estimator fold keeps exactly the most recent entries: after feeding
`durs` from a state whose window fits the capacity, the window is the
suffix of the concatenated stream that fits the capacity. -/
theorem fpsFold_ftimes (durs : List Int) (st : FpsState) (h : st.ftimes.length ≤ windowCap) :
    (durs.foldl (fun st d => fpsStep st (recordDur d)) st).ftimes
      = (st.ftimes ++ durs.map recordDur).drop (st.ftimes.length + durs.length - windowCap) := by
  induction durs generalizing st with
  | nil =>
    simp only [List.foldl_nil, List.map_nil, List.append_nil, List.length_nil,
      Nat.add_zero, Nat.sub_eq_zero_of_le h, List.drop_zero]
  | cons d ds ih =>
    rw [List.foldl_cons]
    have hlen' : (fpsStep st (recordDur d)).ftimes.length ≤ windowCap := by
      rw [fpsStep_length st (recordDur d) h]; omega
    rw [ih (fpsStep st (recordDur d)) hlen']
    rw [fpsStep_length st (recordDur d) h, fpsStep_ftimes st (recordDur d) h]
    rw [← List.drop_append_of_le_length
      (by simp only [List.length_append, List.length_singleton]; omega)]
    rw [List.drop_drop]
    have hIdx : st.ftimes.length + 1 - windowCap
        + (min (st.ftimes.length + 1) windowCap + ds.length - windowCap)
        = st.ftimes.length + (d :: ds).length - windowCap := by
      simp only [List.length_cons]; omega
    rw [hIdx]
    have hList : (st.ftimes ++ [recordDur d]) ++ ds.map recordDur
        = st.ftimes ++ (d :: ds).map recordDur := by
      simp [List.append_assoc]
    rw [hList]

/-- The window after a whole run is the suffix of the recorded stream that
fits the capacity. -/
theorem fpsRun_ftimes (durs : List Int) :
    (fpsRun durs).ftimes = (durs.map recordDur).drop (durs.length - windowCap) := by
  have h := fpsFold_ftimes durs fpsInit (by simp [fpsInit, windowCap])
  simpa [fpsRun, fpsInit] using h

/-- The window length after a whole run is `min n windowCap`. -/
theorem fpsRun_length (durs : List Int) :
    (fpsRun durs).ftimes.length = min durs.length windowCap := by
  rw [fpsRun_ftimes]
  simp only [List.length_drop, List.length_map]
  omega

/-- A list of entries that are all at least 1 sums to at least its length. -/
theorem length_le_sum_of_one_le (l : List Int) (h : ∀ x ∈ l, 1 ≤ x) :
    (l.length : Int) ≤ l.sum := by
  induction l with
  | nil => simp
  | cons a t ih =>
    have ht := ih (fun x hx => h x (List.mem_cons_of_mem a hx))
    have ha := h a (by simp)
    simp only [List.length_cons, List.sum_cons]
    push_cast
    omega

/-- The reported average of a nonempty window satisfying the invariant is
at least 1, so the FPS division is safe. -/
theorem avgDur_one_le (st : FpsState) (h : FpsInv st) (hne : st.ftimes ≠ []) :
    1 ≤ avgDur st := by
  obtain ⟨hsum, hlen, hpos⟩ := h
  unfold avgDur
  have hlen0 : 0 < st.ftimes.length := List.length_pos.mpr hne
  have hl : (0 : Int) < (st.ftimes.length : Int) := by exact_mod_cast hlen0
  rw [hsum, Int.le_ediv_iff_mul_le hl]
  simpa using length_le_sum_of_one_le st.ftimes hpos

set_option maxRecDepth 10000

/-- C1: for every sequence of nonnegative raw frame durations fed through
the rolling window of capacity 100, after all insertions the running sum
`dur_sum` equals the sum of the last `min n 100` recorded values, the
window holds exactly `min n 100` entries, and the reported average equals
that sum divided by `min n 100` (which coincides with flooring the
quotient at 1, since every recorded duration is at least 1); in
particular 150 insertions of the value 10 yield sum 1000, average 10 and
100 FPS. -/
theorem fps_window_spec (durs : List Int) (hd : ∀ x ∈ durs, 0 ≤ x) (hne : durs ≠ []) :
    (fpsRun durs).dur_sum = ((durs.map recordDur).drop (durs.length - windowCap)).sum
    ∧ (fpsRun durs).ftimes.length = min durs.length windowCap
    ∧ avgDur (fpsRun durs) = (fpsRun durs).dur_sum / (min durs.length windowCap : Int)
    ∧ avgDur (fpsRun durs) = max 1 ((fpsRun durs).dur_sum / (min durs.length windowCap : Int))
    ∧ (fpsRun (List.replicate 150 10)).dur_sum = 1000
    ∧ avgDur (fpsRun (List.replicate 150 10)) = 10
    ∧ avgFps (fpsRun (List.replicate 150 10)) = 100 := by
  have hinv := fpsRun_inv durs hd
  have hft := fpsRun_ftimes durs
  have hlen := fpsRun_length durs
  have hsum : (fpsRun durs).dur_sum
      = ((durs.map recordDur).drop (durs.length - windowCap)).sum := by
    rw [hinv.1, hft]
  have havg : avgDur (fpsRun durs)
      = (fpsRun durs).dur_sum / (min durs.length windowCap : Int) := by
    unfold avgDur
    rw [hlen]
    norm_cast
  have hpos : (fpsRun durs).ftimes ≠ [] := by
    have h0 : 0 < durs.length := List.length_pos.mpr hne
    intro hnil
    rw [hnil] at hlen
    simp only [List.length_nil] at hlen
    simp [windowCap] at hlen
    omega
  have hone : 1 ≤ avgDur (fpsRun durs) := avgDur_one_le _ hinv hpos
  refine ⟨hsum, hlen, havg, ?_, by decide, by decide, by decide⟩
  rw [← havg]
  exact (max_eq_right hone).symm

/-- Witness for C1: instantiating the statement at 150 copies of the
duration 10 reports 100 FPS. -/
theorem fps_window_spec_witness : avgFps (fpsRun (List.replicate 150 10)) = 100 :=
  (fps_window_spec (List.replicate 150 10) (by decide) (by decide)).2.2.2.2.2.2

/-- C2: in every iteration that reaches the FPS computation, a measured
duration of 0 is recorded as 1 before insertion, the computed average
duration over the window is at least 1 (hence non-zero), and the reported
FPS is exactly 1000 divided by that average, so the division never divides
by zero. -/
theorem fps_no_div_by_zero (st : FpsState) (d : Int) (h : FpsInv st) (hd : 0 ≤ d) :
    recordDur 0 = 1
    ∧ 1 ≤ recordDur d
    ∧ 1 ≤ avgDur (fpsStep st (recordDur d))
    ∧ avgDur (fpsStep st (recordDur d)) ≠ 0
    ∧ avgFps (fpsStep st (recordDur d)) = 1000 / avgDur (fpsStep st (recordDur d)) := by
  have h1 : 1 ≤ recordDur d := recordDur_one_le d hd
  have hinv' := fpsStep_inv st (recordDur d) h h1
  have hne : (fpsStep st (recordDur d)).ftimes ≠ [] := by
    intro hnil
    have := fpsStep_length st (recordDur d) h.2.1
    rw [hnil] at this
    simp only [List.length_nil] at this
    simp [windowCap] at this
    omega
  have hone := avgDur_one_le _ hinv' hne
  exact ⟨by decide, h1, hone, by omega, rfl⟩

/-- Witness for C2: the first iteration with a measured duration of 0
reports an average of at least 1. -/
theorem fps_no_div_by_zero_witness : 1 ≤ avgDur (fpsStep fpsInit (recordDur 0)) :=
  (fps_no_div_by_zero fpsInit 0 ⟨rfl, by decide, by simp [fpsInit]⟩ (by decide)).2.2.1

/-- A non-firing observation leaves the controller state unchanged. -/
theorem toggleStep_no_fire (st : ToggleState) (t : Int) (h : toggleFires st t = false) :
    toggleStep st t = st := by
  unfold toggleFires at h
  unfold toggleStep
  rw [if_neg (by simpa using h)]

/-- A run of observations none of which fires leaves the controller state
unchanged. -/
theorem toggleRun_no_fire (st : ToggleState) (ts : List Int)
    (h : ∀ u ∈ ts, toggleFires st u = false) : toggleRun st ts = st := by
  induction ts with
  | nil => rfl
  | cons u us ih =>
    unfold toggleRun
    rw [List.foldl_cons, toggleStep_no_fire st u (h u (by simp))]
    exact ih (fun v hv => h v (List.mem_cons_of_mem u hv))

/-- C3: the firing condition of the tuning controller is exactly
`now - time_of_last_toggle > next_interval`; on firing the last-toggle time
resets to `now` and the interval grows by exactly the 10000 ms step; and
between one firing at time `t` and the next firing at time `tq` (with only
non-firing observations in between, which leave the state unchanged) more
than the current interval value has elapsed: `tq - t > next_toggle`. -/
theorem toggle_backoff (st : ToggleState) (t tq : Int) (ts : List Int)
    (h1 : toggleFires st t = true)
    (h2 : ∀ u ∈ ts, toggleFires (toggleStep st t) u = false)
    (h3 : toggleFires (toggleRun (toggleStep st t) ts) tq = true) :
    (toggleFires st t = true ↔ t - st.t_since_toggle > st.next_toggle)
    ∧ (toggleStep st t).t_since_toggle = t
    ∧ (toggleStep st t).next_toggle = st.next_toggle + 10000
    ∧ toggleRun (toggleStep st t) ts = toggleStep st t
    ∧ tq - t > (toggleStep st t).next_toggle := by
  have hcond : t - st.t_since_toggle > st.next_toggle := by
    simpa [toggleFires] using h1
  have hstep : toggleStep st t = ⟨t, st.next_toggle + 10000⟩ := by
    unfold toggleStep
    rw [if_pos hcond]
  have hrun := toggleRun_no_fire (toggleStep st t) ts h2
  have h4 : tq - t > st.next_toggle + 10000 := by
    rw [hrun, hstep] at h3
    simpa [toggleFires] using h3
  refine ⟨⟨fun _ => hcond, fun _ => h1⟩, by rw [hstep], by rw [hstep], hrun, ?_⟩
  rw [hstep]
  exact h4

/-- Witness for C3: the controller starting at time 0 fires at time 3001,
a non-firing observation at 5000 leaves it idle, and a second firing at
17000 is more than the grown 13000 ms interval after the first. -/
theorem toggle_backoff_witness :
    (17000 : Int) - 3001 > (toggleStep (toggleInit 0) 3001).next_toggle :=
  (toggle_backoff (toggleInit 0) 3001 17000 [5000]
    (by decide) (by decide) (by decide)).2.2.2.2

/-- When the first six calls all fail, the retry loop with budget 5 aborts
after exactly six calls (the initial call plus five retries; the sixth
failure drives `tries` past the budget and is not retried). -/
theorem retryLoop_all_fail (attempt : Nat → Bool) (h : ∀ i, i < 6 → attempt i = false) :
    retryLoop attempt 5 = RetryOutcome.fatalAbort 6 := by
  have e0 := h 0 (by omega)
  have e1 := h 1 (by omega)
  have e2 := h 2 (by omega)
  have e3 := h 3 (by omega)
  have e4 := h 4 (by omega)
  have e5 := h 5 (by omega)
  simp [retryLoop, retryGo, e0, e1, e2, e3, e4, e5]

/-- When the first two calls fail and the third succeeds, the retry loop
with budget 5 reports success after three calls. -/
theorem retryLoop_third_call (attempt : Nat → Bool) (h0 : attempt 0 = false)
    (h1 : attempt 1 = false) (h2 : attempt 2 = true) :
    retryLoop attempt 5 = RetryOutcome.ok 3 := by
  simp [retryLoop, retryGo, h0, h1, h2]

/-- C5: a startup-configuration mutation step with retry budget 5 that
fails six consecutive times stops the pipeline and exits with code 1 after
exactly six calls (the initial call plus five retries; the sixth failure is
not retried), while a step that fails twice and succeeds on the third call
reports success after three calls with no fatal abort. -/
theorem startup_retry_budget (a1 a2 : Nat → Bool)
    (h1 : ∀ i, i < 6 → a1 i = false)
    (h2 : a2 0 = false) (h3 : a2 1 = false) (h4 : a2 2 = true) :
    runStartupStep a1 = ⟨some 1, true, 6⟩
    ∧ runStartupStep a2 = ⟨none, false, 3⟩ := by
  constructor
  · unfold runStartupStep
    rw [retryLoop_all_fail a1 h1]
  · unfold runStartupStep
    rw [retryLoop_third_call a2 h2 h3 h4]

/-- Witness for C5: an always-failing call aborts with exit code 1 after
six calls, and a call succeeding on its third attempt reports success. -/
theorem startup_retry_budget_witness :
    runStartupStep (fun _ => false) = ⟨some 1, true, 6⟩
    ∧ runStartupStep (fun i => decide (i = 2)) = ⟨none, false, 3⟩ :=
  startup_retry_budget (fun _ => false) (fun i => decide (i = 2))
    (fun _ _ => rfl) (by decide) (by decide) (by decide)

/-- The variant 1 tuning sweep never terminates the session, whatever the
sensor does: every raised `rs2::error` is caught inside the loop. -/
theorem sweepSensorV1_fatal (b : SensorBehavior) : (sweepSensorV1 b).fatal = false := by
  unfold sweepSensorV1
  split
  · rfl
  · split
    · rfl
    · cases b.aeReadback2 with
      | none => rfl
      | some v => split <;> split <;> rfl

/-- C6: the fatal/non-fatal asymmetry. A best-effort tuning mutation inside
the periodic controller never terminates the session, whatever exceptions
the sensor raises (both variants), whereas exhausting the retry budget of a
one-time startup-configuration step stops the pipeline and exits with the
non-zero code 1. -/
theorem fatal_asymmetry (b : SensorBehavior) (attempt : Nat → Bool)
    (h : ∀ i, i < 6 → attempt i = false) :
    (sweepSensorV1 b).fatal = false
    ∧ (sweepSensorV2 b).fatal = false
    ∧ runStartupStep attempt = ⟨some 1, true, 6⟩ := by
  refine ⟨sweepSensorV1_fatal b, rfl, ?_⟩
  unfold runStartupStep
  rw [retryLoop_all_fail attempt h]

/-- Witness for C6: a sensor whose region-of-interest write raises does not
terminate the session, while an always-failing startup step does. -/
theorem fatal_asymmetry_witness :
    (sweepSensorV1 ⟨true, true, true, false, some 1, some 1, true⟩).fatal = false
    ∧ (sweepSensorV2 ⟨true, true, true, false, some 1, some 1, true⟩).fatal = false
    ∧ runStartupStep (fun _ => false) = ⟨some 1, true, 6⟩ :=
  fatal_asymmetry ⟨true, true, true, false, some 1, some 1, true⟩
    (fun _ => false) (fun _ _ => rfl)

/-- Walking a frame set that contains a depth frame of the wrong resolution
always ends in the fatal resolution error, whatever came before it. -/
theorem processFrames_error (fs : List Frame) (gd gc : Bool)
    (h : ∃ f ∈ fs, f.kind = FrameKind.depthFrame
        ∧ (f.width ≠ depth_w ∨ f.height ≠ depth_h)) :
    processFrames fs gd gc = Except.error () := by
  induction fs generalizing gd gc with
  | nil => simp at h
  | cons f fs ih =>
    obtain ⟨g, hg, hk, hbad⟩ := h
    unfold processFrames
    cases hfk : f.kind with
    | depthFrame =>
      by_cases hw : f.width ≠ depth_w ∨ f.height ≠ depth_h
      · rw [if_pos hw]
      · rw [if_neg hw]
        apply ih
        rcases List.mem_cons.mp hg with rfl | hmem
        · exact absurd hbad hw
        · exact ⟨g, hmem, hk, hbad⟩
    | colorFrame =>
      by_cases hw : f.width ≠ color_w ∨ f.height ≠ color_h
      · rw [if_pos hw]
      · rw [if_neg hw]
        apply ih
        rcases List.mem_cons.mp hg with rfl | hmem
        · rw [hfk] at hk; cases hk
        · exact ⟨g, hmem, hk, hbad⟩

/-- Walking a frame set in which every frame matches its configured
resolution succeeds, and the modality flags record exactly which
modalities occur in the set. -/
theorem processFrames_ok (fs : List Frame) (gd gc : Bool)
    (h : ∀ f ∈ fs, (f.kind = FrameKind.depthFrame → f.width = depth_w ∧ f.height = depth_h)
        ∧ (f.kind = FrameKind.colorFrame → f.width = color_w ∧ f.height = color_h)) :
    processFrames fs gd gc
      = Except.ok (gd || fs.any (fun f => decide (f.kind = FrameKind.depthFrame)),
                   gc || fs.any (fun f => decide (f.kind = FrameKind.colorFrame))) := by
  induction fs generalizing gd gc with
  | nil => simp [processFrames]
  | cons f fs ih =>
    unfold processFrames
    cases hfk : f.kind with
    | depthFrame =>
      have hok := (h f (by simp)).1 hfk
      rw [if_neg (by simp [hok.1, hok.2])]
      rw [ih true gc (fun g hg => h g (List.mem_cons_of_mem f hg))]
      simp [hfk]
    | colorFrame =>
      have hok := (h f (by simp)).2 hfk
      show (if f.width ≠ color_w ∨ f.height ≠ color_h then Except.error ()
          else processFrames fs gd true) = _
      rw [if_neg (by simp [hok.1, hok.2])]
      rw [ih gd true (fun g hg => h g (List.mem_cons_of_mem f hg))]
      simp [hfk]

/-- An iteration whose frame set is well-formed but lacks one of the two
modalities ends in the end-of-stream break. -/
theorem loopIteration_missing (inp : IterInput)
    (hs : inp.sigint = false)
    (hok : ∀ f ∈ inp.frames,
        (f.kind = FrameKind.depthFrame → f.width = depth_w ∧ f.height = depth_h)
        ∧ (f.kind = FrameKind.colorFrame → f.width = color_w ∧ f.height = color_h))
    (hmiss : (∀ f ∈ inp.frames, f.kind ≠ FrameKind.depthFrame)
        ∨ (∀ f ∈ inp.frames, f.kind ≠ FrameKind.colorFrame)) :
    loopIteration inp = IterResult.missingModality := by
  have hpo := processFrames_ok inp.frames false false hok
  unfold loopIteration
  rw [hs]
  rcases hmiss with h | h
  · have hany : inp.frames.any (fun f => decide (f.kind = FrameKind.depthFrame)) = false := by
      simp only [List.any_eq_false, decide_eq_true_eq]
      exact h
    simp [hpo, hany]
  · have hany : inp.frames.any (fun f => decide (f.kind = FrameKind.colorFrame)) = false := by
      simp only [List.any_eq_false, decide_eq_true_eq]
      exact h
    simp [hpo, hany]

/-- C7: in strict-validation mode, an iteration whose frame set contains a
depth frame whose width or height differs from the configured 640 x 480
resolution ends the capture loop with the fatal resolution error, the
pipeline stop runs, and the process exits with the non-zero status 1. -/
theorem depth_resolution_fatal (inp : IterInput) (rest : List IterInput)
    (hs : inp.sigint = false)
    (hf : ∃ f ∈ inp.frames, f.kind = FrameKind.depthFrame
        ∧ (f.width ≠ depth_w ∨ f.height ≠ depth_h)) :
    loopIteration inp = IterResult.fatalResolution
    ∧ runLoop (inp :: rest) = some ⟨true, 1⟩ := by
  have hpe := processFrames_error inp.frames false false hf
  have hit : loopIteration inp = IterResult.fatalResolution := by
    unfold loopIteration
    rw [hs]
    simp [hpe]
  refine ⟨hit, ?_⟩
  unfold runLoop
  rw [hit]

/-- Witness for C7: a depth frame of width 639 (expected 640) stops the
pipeline and exits with status 1. -/
theorem depth_resolution_fatal_witness :
    runLoop [⟨false, [⟨FrameKind.depthFrame, 639, 480⟩]⟩] = some ⟨true, 1⟩ :=
  (depth_resolution_fatal ⟨false, [⟨FrameKind.depthFrame, 639, 480⟩]⟩ [] rfl
    ⟨⟨FrameKind.depthFrame, 639, 480⟩, by simp, rfl, by decide⟩).2

/-- C8: an iteration whose well-formed frame set lacks the depth or the
color modality is treated as end-of-stream: the loop breaks (no fatal
error), the pipeline stop runs, and the process returns. -/
theorem missing_modality_eos (inp : IterInput) (rest : List IterInput)
    (hs : inp.sigint = false)
    (hok : ∀ f ∈ inp.frames,
        (f.kind = FrameKind.depthFrame → f.width = depth_w ∧ f.height = depth_h)
        ∧ (f.kind = FrameKind.colorFrame → f.width = color_w ∧ f.height = color_h))
    (hmiss : (∀ f ∈ inp.frames, f.kind ≠ FrameKind.depthFrame)
        ∨ (∀ f ∈ inp.frames, f.kind ≠ FrameKind.colorFrame)) :
    loopIteration inp = IterResult.missingModality
    ∧ runLoop (inp :: rest) = some ⟨true, 0⟩ := by
  have hit := loopIteration_missing inp hs hok hmiss
  refine ⟨hit, ?_⟩
  unfold runLoop
  rw [hit]

/-- Witness for C8: a frame set holding only a valid color frame breaks the
loop and the pipeline is stopped. -/
theorem missing_modality_eos_witness :
    runLoop [⟨false, [⟨FrameKind.colorFrame, 960, 540⟩]⟩] = some ⟨true, 0⟩ :=
  (missing_modality_eos ⟨false, [⟨FrameKind.colorFrame, 960, 540⟩]⟩ [] rfl
    (by intro f hf; simp at hf; subst hf; exact ⟨(by intro h; cases h), fun _ => ⟨rfl, rfl⟩⟩)
    (Or.inl (by intro f hf; simp at hf; subst hf; intro h; cases h))).2

/-- C10: both cooperative loop terminations exit cleanly: an iteration that
observes the cancellation flag at its boundary, and an iteration whose
well-formed frame set lacks a modality, each stop the pipeline and exit
with status 0. -/
theorem cooperative_exit_zero (inp1 inp2 : IterInput) (rest1 rest2 : List IterInput)
    (h1 : inp1.sigint = true)
    (hs : inp2.sigint = false)
    (hok : ∀ f ∈ inp2.frames,
        (f.kind = FrameKind.depthFrame → f.width = depth_w ∧ f.height = depth_h)
        ∧ (f.kind = FrameKind.colorFrame → f.width = color_w ∧ f.height = color_h))
    (hmiss : (∀ f ∈ inp2.frames, f.kind ≠ FrameKind.depthFrame)
        ∨ (∀ f ∈ inp2.frames, f.kind ≠ FrameKind.colorFrame)) :
    loopIteration inp1 = IterResult.sigintBreak
    ∧ runLoop (inp1 :: rest1) = some ⟨true, 0⟩
    ∧ runLoop (inp2 :: rest2) = some ⟨true, 0⟩ := by
  have hi1 : loopIteration inp1 = IterResult.sigintBreak := by
    unfold loopIteration
    rw [h1]
    rfl
  have hi2 := loopIteration_missing inp2 hs hok hmiss
  refine ⟨hi1, ?_, ?_⟩
  · unfold runLoop
    rw [hi1]
  · unfold runLoop
    rw [hi2]

/-- Witness for C10: a sigint observed at the boundary, and a color-only
frame set, both stop the pipeline and exit with status 0. -/
theorem cooperative_exit_zero_witness :
    runLoop [(⟨true, []⟩ : IterInput)] = some ⟨true, 0⟩ :=
  (cooperative_exit_zero ⟨true, []⟩ ⟨false, []⟩ [] [] rfl rfl
    (by intro f hf; cases hf) (Or.inl (by intro f hf; cases hf))).2.1

/-- Counterexample to C4: in variant 2's tuning sweep there is no
auto-exposure readback before the region-of-interest request at all. For a
sensor whose auto-exposure option would read back 0, the region-of-interest
mutation is still attempted, refuting the claimed equivalence for every
tuning sweep of the repository. -/
theorem roi_guard_counterexample :
    (⟨true, true, true, false, some 0, some 0, false⟩ : SensorBehavior).aeReadback2 = some 0
    ∧ (sweepSensorV2 ⟨true, true, true, false, some 0, some 0, false⟩).roiAttempted = true :=
  ⟨rfl, rfl⟩

/-- C4 (amended): in variant 1's tuning sweep, for a sensor that passes the
capability gate, the region-of-interest mutation is attempted if and only
if the immediately preceding auto-exposure readback (after the re-enable)
returned a non-zero value; a readback of 0 skips the region-of-interest
step and continues with the next sensor (also skipping that sensor's
emitter step, without terminating the session). Variant 2 attempts the
region-of-interest mutation without any readback. -/
theorem roi_guard_v1 (b : SensorBehavior)
    (hq : b.capQueryThrows = false) (hae : b.supportsAE = true)
    (hem : b.supportsEmitter = true) (hroi : b.isRoi = true) :
    ((sweepSensorV1 b).roiAttempted = true ↔ ∃ v, b.aeReadback2 = some v ∧ v ≠ 0)
    ∧ (b.aeReadback2 = some 0 →
        (sweepSensorV1 b).roiAttempted = false
        ∧ (sweepSensorV1 b).emitterAttempted = false
        ∧ (sweepSensorV1 b).fatal = false) := by
  unfold sweepSensorV1
  rw [hq, hae, hem, hroi]
  cases hb : b.aeReadback2 with
  | none => simp
  | some v =>
    by_cases hv : v = 0
    · subst hv
      simp
    · simp [hv]

/-- Witness for the amended C4: a sensor whose second readback reports 0
does not get the region-of-interest request. -/
theorem roi_guard_v1_witness :
    (sweepSensorV1 ⟨true, true, true, false, some 1, some 0, false⟩).roiAttempted = false :=
  ((roi_guard_v1 ⟨true, true, true, false, some 1, some 0, false⟩ rfl rfl rfl rfl).2 rfl).1

/-- Counterexample to C9: variant 1's sweep does not follow the
per-mutation capability policy. For a sensor that advertises auto exposure
but not the emitter option, the supported auto-exposure steps are not
executed either: the whole sensor is skipped. -/
theorem per_mutation_counterexample :
    (⟨true, false, true, false, some 1, some 1, false⟩ : SensorBehavior).supportsAE = true
    ∧ (sweepSensorV1 ⟨true, false, true, false, some 1, some 1, false⟩).aeDisableAttempted = false
    ∧ (sweepSensorV1 ⟨true, false, true, false, some 1, some 1, false⟩).aeEnableAttempted = false := by
  decide

/-- C9 (amended): the two variants implement different capability policies.
Variant 1 skips a sensor entirely when any of the three capabilities
(auto-exposure option, emitter option, region-of-interest support) is
missing, executing none of its mutation steps; variant 2 checks the
capability per mutation: the emitter write is issued exactly when the
emitter option is advertised, the auto-exposure re-enable exactly when the
auto-exposure option is advertised, and the auto-exposure disable only when
the auto-exposure option is advertised. -/
theorem capability_policy (b : SensorBehavior) (hq : b.capQueryThrows = false) :
    ((b.supportsAE = false ∨ b.supportsEmitter = false ∨ b.isRoi = false) →
      sweepSensorV1 b = ⟨false, false, false, false, false⟩)
    ∧ (sweepSensorV2 b).emitterAttempted = b.supportsEmitter
    ∧ (sweepSensorV2 b).aeEnableAttempted = b.supportsAE
    ∧ ((sweepSensorV2 b).aeDisableAttempted = true → b.supportsAE = true) := by
  refine ⟨?_, rfl, rfl, ?_⟩
  · intro hmiss
    unfold sweepSensorV1
    rw [hq]
    have hcond : (!b.supportsAE || !b.supportsEmitter || !b.isRoi) = true := by
      rcases hmiss with h | h | h <;> simp [h]
    simp [hcond]
  · intro hdis
    have hh : ((!(!b.isRoi || b.roiSetThrows)) && b.supportsAE) = true := hdis
    cases hsae : b.supportsAE
    · rw [hsae] at hh
      simp at hh
    · rfl

/-- Witness for the amended C9: a sensor advertising auto exposure but not
the emitter is skipped whole by variant 1. -/
theorem capability_policy_witness :
    sweepSensorV1 ⟨true, false, true, false, some 1, some 1, false⟩
      = ⟨false, false, false, false, false⟩ :=
  (capability_policy ⟨true, false, true, false, some 1, some 1, false⟩ rfl).1
    (Or.inr (Or.inl rfl))
